import Mathlib

/-!
Verification of the API gateway's admission and routing pipeline against a
shallow Lean embedding of the Go source.  Every definition below is
translated from a named function of the repository:

* `tbEval`, `tbAllow`          — internal/ratelimiter/token_bucket.go (Lua script + `TokenBucket.Allow`)
* `lbEval`, `lbAllow`          — internal/ratelimiter (leaky bucket, `LeakyBucket.Allow`)
* `swEval`, `swAllow`          — internal/ratelimiter (sliding window, `SlidingWindow.Allow`)
* `tokenBucketWindow`, `leakyBucketWindow` — the TTL (`window`) expressions those `Allow` methods pass to EXPIRE
* `LimitInfo.getHeaders`       — `LimitInfo.GetHeaders`
* `rateLimitMiddlewareRun`     — internal/middleware/ratelimit.go `RateLimitMiddleware.Middleware`
* `defaultKeyFunc`             — internal/middleware/ratelimit.go `defaultKeyFunc`
* `newWeightedRoundRobin`, `wrrNext` — internal/proxy/balancer.go (`NewWeightedRoundRobin`, `WeightedRoundRobin.Next`)
* `routerWeights`              — the weight-slice construction in `proxy.NewRouter`
* `buildUpstreamHeader`        — the header copy + hop-by-hop deletion in `Router.Proxy`
* `getHealthyURLs`, `roundRobinStep` — `HealthChecker.GetHealthyURLs`, `Router.roundRobin`
* `runChain`, `v1Chain`        — the gin middleware registration order in `setupRouter` (cmd/main.go)

Machine integers are modelled as `Nat`/`Int`; unix times are in whole
seconds, matching the Go source which truncates to `Unix()` seconds before
handing times to the Lua scripts.
-/

namespace ApiGateway

/-- Ceiling division on naturals: `ceilDiv a b = ⌈a / b⌉` for `b > 0`.
This is what `math.ceil(a / b)` computes in the Lua scripts when `a` and
`b` are non-negative integers. -/
def ceilDiv (a b : Nat) : Nat := (a + b - 1) / b

/-! ## Token bucket (internal/ratelimiter/token_bucket.go) -/

/-- Per-key token-bucket state persisted in the coordination store:
the `tokens`/`last_refill` hash fields. -/
structure TBState where
  tokens : Nat
  lastRefill : Nat
deriving DecidableEq, Repr

/-- The triple `{flag, tokens, wait}` returned by the token-bucket Lua
script (`flag` is `1` for allowed, `0` for denied). -/
structure TBScriptReply where
  flag : Nat
  tokens : Nat
  wait : Nat
deriving DecidableEq, Repr

/-- The token-bucket Lua script, evaluated atomically on the store.
`st = none` models an unused key (HMGET returns no fields, so the
`or bucket_size` / `or now` defaults apply).  Returns the script reply and
the state written back by HMSET. -/
def tbEval (bucketSize refillRate now : Nat) (st : Option TBState) :
    TBScriptReply × TBState :=
  let tokens0 := (st.map TBState.tokens).getD bucketSize
  let last0 := (st.map TBState.lastRefill).getD now
  let elapsed := now - last0
  let tokens1 := if 0 < elapsed then min bucketSize (tokens0 + elapsed * refillRate) else tokens0
  let last1 := if 0 < elapsed then now else last0
  if 1 ≤ tokens1 then
    (⟨1, tokens1 - 1, ceilDiv (bucketSize - (tokens1 - 1)) refillRate⟩, ⟨tokens1 - 1, last1⟩)
  else
    (⟨0, tokens1, ceilDiv (1 - tokens1) refillRate⟩, ⟨tokens1, last1⟩)

/-- `window := int(time.Duration(tb.bucketSize) * time.Second / time.Duration(tb.refillRate))`
from `TokenBucket.Allow`.  `time.Duration(B)` is `B` nanoseconds, so the
quotient is the integer `B * 10^9 / R`, and that raw number is passed to
EXPIRE as a count of seconds. -/
def tokenBucketWindow (bucketSize refillRate : Nat) : Nat :=
  bucketSize * 1000000000 / refillRate

/-- The uniform `LimitInfo` record produced by every limiter variant.
`Remaining` and `ResetIn` are Go `int`s (ResetIn is seconds; the Go struct
stores it as a `time.Duration` built from that many seconds). -/
structure LimitInfo where
  Allowed : Bool
  Remaining : Int
  Limit : Nat
  ResetIn : Int
deriving DecidableEq, Repr

/-- The Go-level triple returned by each `Allow` method. -/
structure AllowReturn where
  allowed : Bool
  info : Option LimitInfo
  err : Option String
deriving DecidableEq, Repr

/-- `TokenBucket.Allow`: on a store (redis) error it returns
`(false, nil, error)`; otherwise it evaluates the script and wraps the
reply in a `LimitInfo`.  The second component is the store effect: the
state written back together with the EXPIRE TTL in seconds. -/
def tbAllow (bucketSize refillRate now : Nat) (store : Except String (Option TBState)) :
    AllowReturn × Option (TBState × Nat) :=
  match store with
  | .error e => (⟨false, none, some ("redis error: " ++ e)⟩, none)
  | .ok st =>
    let r := tbEval bucketSize refillRate now st
    (⟨r.1.flag == 1, some ⟨r.1.flag == 1, (r.1.tokens : Int), bucketSize, (r.1.wait : Int)⟩, none⟩,
     some (r.2, tokenBucketWindow bucketSize refillRate))

/-- State of the bucket after `k` consecutive `Allow` calls at time `now`
starting from an unused key (`k = 0` is the unused key itself). -/
def tbStateAfter (bucketSize refillRate now : Nat) : Nat → Option TBState
  | 0 => none
  | k + 1 => some (tbEval bucketSize refillRate now (tbStateAfter bucketSize refillRate now k)).2

/-- Script reply of the `i`-th consecutive call (1-indexed) at time `now`
against an initially unused key. -/
def tbCallReply (bucketSize refillRate now i : Nat) : TBScriptReply :=
  (tbEval bucketSize refillRate now (tbStateAfter bucketSize refillRate now (i - 1))).1

/-! ## Leaky bucket (second half of internal/ratelimiter/token_bucket.go) -/

/-- Per-key leaky-bucket state: the `level`/`last_leak` hash fields. -/
structure LBState where
  level : Nat
  lastLeak : Nat
deriving DecidableEq, Repr

/-- The triple `{flag, remaining, wait}` returned by the leaky-bucket Lua
script.  `remaining = capacity - level` is a plain integer subtraction in
Lua, so it is modelled in `Int`. -/
structure LBScriptReply where
  flag : Nat
  remaining : Int
  wait : Nat
deriving DecidableEq, Repr

/-- The leaky-bucket Lua script.  An unused key reads as
`level = 0, last_leak = now`.  `math.max(0, level - leaked)` is the
truncated subtraction of `Nat`. -/
def lbEval (capacity leakRate now : Nat) (st : Option LBState) :
    LBScriptReply × LBState :=
  let level0 := (st.map LBState.level).getD 0
  let last0 := (st.map LBState.lastLeak).getD now
  let elapsed := now - last0
  let level1 := if 0 < elapsed then level0 - elapsed * leakRate else level0
  let last1 := if 0 < elapsed then now else last0
  if level1 < capacity then
    (⟨1, (capacity : Int) - (level1 + 1), ceilDiv (capacity - (level1 + 1)) leakRate⟩,
     ⟨level1 + 1, last1⟩)
  else
    (⟨0, (capacity : Int) - level1, ceilDiv (level1 - capacity + 1) leakRate⟩,
     ⟨level1, last1⟩)

/-- The TTL `window` computed in `LeakyBucket.Allow`: `1` when
`leakRate ≤ 0`, otherwise
`int(time.Duration(capacity) * time.Second / time.Duration(leakRate))`
(i.e. `C * 10^9 / L`), floored at `1`. -/
def leakyBucketWindow (capacity leakRate : Nat) : Nat :=
  if 0 < leakRate then
    let w := capacity * 1000000000 / leakRate
    if w ≤ 0 then 1 else w
  else 1

/-- `LeakyBucket.Allow` at the Go level (same shape as `tbAllow`). -/
def lbAllow (capacity leakRate now : Nat) (store : Except String (Option LBState)) :
    AllowReturn × Option (LBState × Nat) :=
  match store with
  | .error e => (⟨false, none, some ("redis error: " ++ e)⟩, none)
  | .ok st =>
    let r := lbEval capacity leakRate now st
    (⟨r.1.flag == 1, some ⟨r.1.flag == 1, r.1.remaining, capacity, (r.1.wait : Int)⟩, none⟩,
     some (r.2, leakyBucketWindow capacity leakRate))

/-! ## Sliding window (internal/ratelimiter, `SlidingWindow.Allow`) -/

/-- The triple `{flag, remaining, wait}` returned by the sliding-window
Lua script. -/
structure SWScriptReply where
  flag : Nat
  remaining : Int
  wait : Int
deriving DecidableEq, Repr

/-- The sliding-window Lua script.  The per-key state is the redis sorted
set, modelled as the list of its scores (member = score = a unix second,
so the set never holds duplicates; `List.insert` reproduces ZADD's
update-if-present behaviour).  `ZREMRANGEBYSCORE key 0 window_start`
removes exactly the scores in `[0, window_start]`; `ZRANGE key 0 0
WITHSCORES` reads the minimum score.  Returns the reply, the surviving
set, and the TTL set by EXPIRE (only the allowed branch touches it). -/
def swEval (limit : Nat) (wStart wEnd wSize : Int) (st : List Int) :
    SWScriptReply × List Int × Option Int :=
  let kept := st.filter (fun t => decide (t < 0 ∨ wStart < t))
  let current := kept.length
  if current < limit then
    (⟨1, (limit : Int) - current - 1, wSize⟩, kept.insert wEnd, some wSize)
  else
    let wait := match kept.min? with
      | none => 0
      | some t0 => wStart + wSize - t0
    (⟨0, 0, wait⟩, kept, none)

/-- `SlidingWindow.Allow`: computes `windowStart = now - W`,
`windowEnd = now` (unix seconds; the window size is a whole number `W` of
seconds, as `int(sw.windowSize.Seconds())`), evaluates the script and
wraps the reply; on a store error returns `(false, nil, error)`. -/
def swAllow (limit wSize : Nat) (now : Int) (store : Except String (List Int)) :
    AllowReturn × Option (List Int × Option Int) :=
  match store with
  | .error e => (⟨false, none, some ("redis error: " ++ e)⟩, none)
  | .ok st =>
    let r := swEval limit (now - wSize) now wSize st
    (⟨r.1.flag == 1, some ⟨r.1.flag == 1, r.1.remaining, limit, r.1.wait⟩, none⟩,
     some (r.2.1, r.2.2))

/-! ## Rate-limit middleware (internal/middleware/ratelimit.go) -/

/-- `LimitInfo.GetHeaders`: the header map built for every decision;
`Retry-After` is added only on denial.  `nowUnix` stands for
`time.Now().Unix()` at header-building time. -/
def LimitInfo.getHeaders (li : LimitInfo) (nowUnix : Int) : List (String × String) :=
  [("X-RateLimit-Limit", toString li.Limit),
   ("X-RateLimit-Remaining", toString li.Remaining),
   ("X-RateLimit-Reset", toString (nowUnix + li.ResetIn))]
  ++ (if li.Allowed then [] else [("Retry-After", toString li.ResetIn)])

/-- Observable outcome of one pass through the rate-limit middleware:
whether `c.Next()` ran (the request proceeded), which headers were set,
and whether the 429 envelope was written. -/
structure MWOutcome where
  nextCalled : Bool
  headers : List (String × String)
  sent429 : Bool
deriving DecidableEq, Repr

/-- `RateLimitMiddleware.Middleware` applied to the result of
`limiter.Allow`: disabled → pass through; `err ≠ nil` → fail open
(`c.Next()` with no headers and no 429); otherwise set the headers and
either abort with 429 or continue.  The `(allowed, none, none)` case
cannot be produced by any of the three limiters (the Go code would
nil-dereference there); it is modelled as an aborted request with no
response. -/
def rateLimitMiddlewareRun (enabled : Bool) (allowRes : AllowReturn) (nowUnix : Int) :
    MWOutcome :=
  if enabled = false then ⟨true, [], false⟩
  else
    match allowRes.err with
    | some _ => ⟨true, [], false⟩
    | none =>
      match allowRes.info with
      | some li =>
        if allowRes.allowed = false then ⟨false, li.getHeaders nowUnix, true⟩
        else ⟨true, li.getHeaders nowUnix, false⟩
      | none => ⟨false, [], false⟩

/-- Request-scoped data `defaultKeyFunc` consults: the `user_id` value in
the gin context (set only if the auth middleware ran and succeeded) and
`c.ClientIP()`. -/
structure KeyFuncCtx where
  userID : Option String
  clientIP : String
deriving DecidableEq, Repr

/-- `defaultKeyFunc`: `"user:" ++ id` when a non-empty user id string is
in the context, else `"ip:" ++ clientIP`. -/
def defaultKeyFunc (c : KeyFuncCtx) : String :=
  match c.userID with
  | some id => if id = "" then "ip:" ++ c.clientIP else "user:" ++ id
  | none => "ip:" ++ c.clientIP

/-! ## Weighted round-robin balancer (internal/proxy/balancer.go) -/

/-- The `WeightedRoundRobin` struct: candidate URLs, base weights and the
current-weight slice.  The slices may have different lengths, exactly as
the Go slices can. -/
structure WRR where
  urls : List String
  weights : List Int
  current : List Int
deriving DecidableEq, Repr

/-- `NewWeightedRoundRobin`: `current := make([]int, len(urls))` followed
by `copy(current, weights)` — the first `min(len(urls), len(weights))`
entries come from `weights`, the rest stay `0`. -/
def newWeightedRoundRobin (urls : List String) (weights : List Int) : WRR :=
  ⟨urls, weights, weights.take urls.length ++ List.replicate (urls.length - weights.length) 0⟩

/-- The argmax scan in `WeightedRoundRobin.Next`: `maxWeight := -1`,
`maxIndex := 0`, replace on strictly greater. -/
def wrrArgmax (current : List Int) (n : Nat) : Nat :=
  ((List.range n).foldl
    (fun acc i => if current.getD i 0 > acc.1 then (current.getD i 0, i) else acc)
    ((-1 : Int), 0)).2

/-- `WeightedRoundRobin.Next`: pick the index found by the scan, subtract
the sum of all base weights from its current weight, then add each base
weight to the corresponding current weight.  (The Go code indexes
`current[i]` and `weights[i]` directly; in every constructed balancer
`len(current) = len(urls) ≤ len(weights)`, so the `getD` defaults are
never taken.) -/
def wrrNext (st : WRR) : String × WRR :=
  if st.urls = [] then ("", st)
  else
    let idx := wrrArgmax st.current st.urls.length
    let total := st.weights.sum
    let cur1 := st.current.set idx (st.current.getD idx 0 - total)
    let cur2 := (List.range cur1.length).map (fun i => cur1.getD i 0 + st.weights.getD i 0)
    (st.urls.getD idx "", ⟨st.urls, st.weights, cur2⟩)

/-- Balancer state after `k` picks. -/
def wrrIter (st : WRR) : Nat → WRR
  | 0 => st
  | k + 1 => (wrrNext (wrrIter st k)).2

/-- The sequence of URLs returned by the first `k` picks. -/
def wrrPicks (st : WRR) : Nat → List String
  | 0 => []
  | k + 1 => wrrPicks st k ++ [(wrrNext (wrrIter st k)).1]

/-- The weight slice built for an upstream in `proxy.NewRouter`:
`Weights := make([]int, len(URLs))` (all zeros) and then, for each URL,
`append(upstream.Weights, weight)` where `weight` is the group's single
configured weight defaulted to `1` — yielding a slice of twice the URL
count. -/
def routerWeights (urlCount : Nat) (cfgWeight : Int) : List Int :=
  List.replicate urlCount 0 ++
    List.replicate urlCount (if cfgWeight = 0 then 1 else cfgWeight)

/-! ## Proxy header hygiene (`Router.Proxy`) -/

/-- The hop-by-hop header names deleted by `Router.Proxy` after copying
the caller's headers. -/
def hopByHopHeaders : List String :=
  ["Connection", "Keep-Alive", "Proxy-Authenticate", "Proxy-Authorization",
   "Te", "Trailers", "Transfer-Encoding", "Upgrade"]

/-- `req.Header.Del(k)`: remove the entry for key `k`.  Headers are
modelled as association lists keyed by the canonical header names, which
is how `net/http` stores them (one entry per key, a list of values). -/
def headerDel (h : List (String × List String)) (k : String) : List (String × List String) :=
  h.filter (fun kv => kv.1 ≠ k)

/-- The upstream header set built by `Router.Proxy`: every caller header
is copied verbatim (`Add` under the same canonical key reproduces the
map), then the eight hop-by-hop names are deleted. -/
def buildUpstreamHeader (h : List (String × List String)) : List (String × List String) :=
  hopByHopHeaders.foldl headerDel h

/-! ## Health fallback and round-robin (config/logger.go, `Router.roundRobin`) -/

/-- `HealthChecker.GetHealthyURLs`: collect the URLs marked healthy in
the health map (an iteration over the map, modelled as an association
list); if none are marked healthy return all configured URLs as the
fallback. -/
def getHealthyURLs (healthy : List (String × Bool)) (urls : List String) : List String :=
  let healthyURLs := (healthy.filter (fun kv => kv.2)).map (fun kv => kv.1)
  if healthyURLs.isEmpty then urls else healthyURLs

/-- `Router.roundRobin`: empty URL list → `""` (the caller's 503 branch);
with a health checker, consult `getHealthyURLs` and bail out with `""` if
it is empty; otherwise advance the cursor modulo the healthy count and
index.  Returns the chosen URL and the new cursor. -/
def roundRobinStep (health : Option (List (String × Bool))) (urls : List String)
    (current : Nat) : String × Nat :=
  if urls.isEmpty then ("", current)
  else
    let healthyURLs := match health with
      | none => urls
      | some hm => getHealthyURLs hm urls
    if healthyURLs.isEmpty then ("", current)
    else
      let cur := (current + 1) % healthyURLs.length
      (healthyURLs.getD cur "", cur)

/-! ## The /v1 middleware chain (`setupRouter` in cmd/main.go) -/

/-- The request data the /v1 middlewares inspect. -/
structure PipeRequest where
  path : String
  authHeader : Option String
deriving DecidableEq, Repr

/-- Observable per-request pipeline state: whether a middleware aborted,
the response status it wrote, whether the rate limiter's `Allow` was
invoked (i.e. budget was consumed), and the `user_id` stored by auth. -/
structure PipeState where
  aborted : Bool
  status : Option Nat
  allowCalled : Bool
  userID : Option String
deriving DecidableEq, Repr

/-- gin semantics of a handler chain: run each registered middleware in
registration order, skipping the rest once one aborts. -/
def runChain (mws : List (PipeRequest → PipeState → PipeState)) (req : PipeRequest) :
    PipeState :=
  mws.foldl (fun st mw => if st.aborted then st else mw req st) ⟨false, none, false, none⟩

/-- The rate-limit middleware as a pipeline stage: when enabled it invokes
`limiter.Allow` (recorded in `allowCalled`) and aborts with 429 on a
denial; `allowed` is the limiter's decision for this request. -/
def rateLimitStage (enabled allowed : Bool) : PipeRequest → PipeState → PipeState :=
  fun _ st =>
    if enabled = false then st
    else if allowed then { st with allowCalled := true }
    else { st with allowCalled := true, aborted := true, status := some 429 }

/-- `strings.HasPrefix(s, p)` from `shouldSkipAuth`, expressed on the
character lists of the two strings. -/
def hasPfx (s p : String) : Bool := p.data.isPrefixOf s.data

/-- The auth middleware as a pipeline stage (`AuthMiddleware.Middleware`):
skip-listed paths pass through; a missing Authorization header aborts with
401; otherwise `verify` (the configured verifier) either yields a user id
stored in the context or the request aborts with 401. -/
def authStage (skipPaths : List String) (verify : String → Option String) :
    PipeRequest → PipeState → PipeState :=
  fun req st =>
    if skipPaths.any (fun p => hasPfx req.path p) then st
    else
      match req.authHeader with
      | none => { st with aborted := true, status := some 401 }
      | some tok =>
        match verify tok with
        | none => { st with aborted := true, status := some 401 }
        | some uid => { st with userID := some uid }

/-- The middleware chain registered on the `/v1` group in `setupRouter`:
`v1.Use(rateLimitMiddleware.Middleware())` first, then
`v1.Use(authMiddleware.Middleware())`. -/
def v1Chain (enabled allowed : Bool) (skipPaths : List String)
    (verify : String → Option String) : List (PipeRequest → PipeState → PipeState) :=
  [rateLimitStage enabled allowed, authStage skipPaths verify]

/-- The default skip-list configuration (`/health`, `/ready`, `/metrics`). -/
def defaultSkipPaths : List String := ["/health", "/ready", "/metrics"]

/-! ## Theorems -/

/-- After `k + 1 ≤ B` consecutive calls at one instant against a fresh
key, the stored bucket holds `B - (k+1)` tokens with `last_refill = now`. -/
theorem tbStateAfter_eq (B R now : Nat) :
    ∀ k, k + 1 ≤ B → tbStateAfter B R now (k + 1) = some ⟨B - (k + 1), now⟩ := by
  intro k
  induction k with
  | zero =>
    intro h
    simp [tbStateAfter, tbEval, h]
  | succ n ih =>
    intro h
    have hn : n + 1 ≤ B := Nat.le_of_succ_le h
    have h1 : 1 ≤ B - (n + 1) := by omega
    rw [tbStateAfter, ih hn]
    simp [tbEval, h1]
    omega

/-- The `i`-th call of a same-instant burst (for `1 ≤ i ≤ B`) is allowed,
leaves `B - i` tokens, and reports `reset_in = ceil(i / R)`. -/
theorem tbCallReply_allowed (B R now : Nat) (hB : 1 ≤ B) :
    ∀ i, 1 ≤ i → i ≤ B → tbCallReply B R now i = ⟨1, B - i, ceilDiv i R⟩ := by
  intro i h1 hiB
  match i, h1 with
  | 1, _ =>
    have : B - (B - 1) = 1 := by omega
    simp [tbCallReply, tbStateAfter, tbEval, hB, this]
  | (j + 2), _ =>
    have hj : j + 1 ≤ B := by omega
    have h1' : 1 ≤ B - (j + 1) := by omega
    rw [tbCallReply, show j + 2 - 1 = j + 1 by omega, tbStateAfter_eq B R now j hj]
    simp [tbEval, h1']
    constructor
    · omega
    · congr 1
      omega

/-- The `(B+1)`-th call of the burst is denied with zero tokens and wait
`ceil(1 / R)`, and leaves the bucket at zero tokens. -/
theorem tbCallReply_denied (B R now : Nat) (hB : 1 ≤ B) :
    tbCallReply B R now (B + 1) = ⟨0, 0, ceilDiv 1 R⟩ ∧
    tbStateAfter B R now (B + 1) = some ⟨0, now⟩ := by
  have hs : tbStateAfter B R now B = some ⟨0, now⟩ := by
    have := tbStateAfter_eq B R now (B - 1) (by omega)
    rw [show B - 1 + 1 = B by omega] at this
    simpa using this
  constructor
  · rw [tbCallReply, show B + 1 - 1 = B by omega, hs]
    simp [tbEval]
  · rw [tbStateAfter, hs]
    simp [tbEval]

/-- Claim C2: for the token bucket with `B ≥ 1` and `R ≥ 1`, starting from
an unused key, the `i`-th of `B` consecutive calls at the same time `t`
is allowed, leaving `B - i` tokens with `reset_in = ceil(i / R)`
(`= ceil((B - (B - i)) / R)`); the `(B+1)`-th call at `t` is denied; and
one further call at `t + ceil(1/R)` is allowed again. -/
theorem tokenBucket_burst (B R now : Nat) (hB : 1 ≤ B) (hR : 1 ≤ R) :
    (∀ i, 1 ≤ i → i ≤ B → tbCallReply B R now i = ⟨1, B - i, ceilDiv i R⟩) ∧
    tbCallReply B R now (B + 1) = ⟨0, 0, 1⟩ ∧
    (tbEval B R (now + ceilDiv 1 R) (tbStateAfter B R now (B + 1))).1.flag = 1 := by
  have hc1 : ceilDiv 1 R = 1 := by
    have h2 : 1 + R - 1 = R := by omega
    rw [ceilDiv, h2, Nat.div_self (by omega)]
  refine ⟨tbCallReply_allowed B R now hB, ?_, ?_⟩
  · rw [(tbCallReply_denied B R now hB).1, hc1]
  · rw [hc1, (tbCallReply_denied B R now hB).2]
    have he : now + 1 - now = 1 := by omega
    simp [tbEval, he]
    rw [if_pos (show 1 ≤ B ∧ 1 ≤ R from ⟨hB, hR⟩)]

/-- Witness for C2 at `B = 2`, `R = 1`, `t = 1000`: the second call leaves
zero tokens (`reset_in = 2`), the third is denied, and a call at `t + 1`
succeeds. -/
theorem tokenBucket_burst_witness :
    tbCallReply 2 1 1000 2 = ⟨1, 0, 2⟩ ∧
    tbCallReply 2 1 1000 3 = ⟨0, 0, 1⟩ ∧
    (tbEval 2 1 1001 (tbStateAfter 2 1 1000 3)).1.flag = 1 :=
  ⟨(tokenBucket_burst 2 1 1000 (by decide) (by decide)).1 2 (by decide) (by decide),
   (tokenBucket_burst 2 1 1000 (by decide) (by decide)).2.1,
   (tokenBucket_burst 2 1 1000 (by decide) (by decide)).2.2⟩

/-- A denied token-bucket script reply is exactly `{0, 0, ceil(1/R)}`. -/
theorem tbEval_denied_reply (B R now : Nat) (st : Option TBState)
    (h : (tbEval B R now st).1.flag ≠ 1) :
    (tbEval B R now st).1 = ⟨0, 0, ceilDiv 1 R⟩ := by
  revert h
  unfold tbEval
  dsimp only
  split
  all_goals split
  all_goals intro h
  · simp at h
  · rename_i hnot
    have h0 := Nat.lt_one_iff.mp (Nat.not_le.mp hnot)
    rw [h0]
  · simp at h
  · rename_i hnot
    have h0 := Nat.lt_one_iff.mp (Nat.not_le.mp hnot)
    rw [h0]

/-- Under the reachability invariant `level ≤ C`, a denied leaky-bucket
script reply is exactly `{0, 0, ceil(1/L)}`. -/
theorem lbEval_denied_reply (C L now : Nat) (st : Option LBState)
    (hInv : ∀ s, st = some s → s.level ≤ C)
    (h : (lbEval C L now st).1.flag ≠ 1) :
    (lbEval C L now st).1 = ⟨0, 0, ceilDiv 1 L⟩ := by
  have hlev0 : (st.map LBState.level).getD 0 ≤ C := by
    cases st with
    | none => simp
    | some s => simpa using hInv s rfl
  revert h
  unfold lbEval
  dsimp only
  split
  all_goals split
  all_goals intro h
  · simp at h
  · rename_i he hnot
    have hC : (st.map LBState.level).getD 0 - (now - (st.map LBState.lastLeak).getD now) * L = C := by
      omega
    rw [hC]
    simp
  · simp at h
  · rename_i he hnot
    have hC : (st.map LBState.level).getD 0 = C := by omega
    rw [hC]
    simp

/-- The leaky-bucket script preserves the invariant `level ≤ C` of the
stored state (so the hypothesis of `lbEval_denied_reply` holds of every
state reachable from a fresh key). -/
theorem lbEval_preserves_level (C L now : Nat) (st : Option LBState)
    (hInv : ∀ s, st = some s → s.level ≤ C) :
    (lbEval C L now st).2.level ≤ C := by
  have hlev0 : (st.map LBState.level).getD 0 ≤ C := by
    cases st with
    | none => simp
    | some s => simpa using hInv s rfl
  unfold lbEval
  dsimp only
  split
  all_goals split
  all_goals simp
  all_goals omega

/-- A denied sliding-window script reply reports `remaining = 0`. -/
theorem swEval_denied_remaining (N : Nat) (ws we wsz : Int) (st : List Int)
    (h : (swEval N ws we wsz st).1.flag ≠ 1) :
    (swEval N ws we wsz st).1.remaining = 0 := by
  revert h
  unfold swEval
  dsimp only
  split
  · intro h
    simp at h
  · intro _
    rfl

/-- Claim C5 (amended): whenever `Allow` returns a `LimitInfo` with
`Allowed = false`, the token bucket (for `R ≥ 1`) and the leaky bucket
(for `L ≥ 1`, on states satisfying the reachability invariant
`level ≤ C`) report `Remaining = 0` and `ResetIn > 0`; the sliding window
reports `Remaining = 0` but its `ResetIn` can be `0` (see the
counterexample), so only `Remaining = 0` holds of it. -/
theorem limiter_denied_info
    (B R C L N W nowN : Nat) (nowZ : Int)
    (stT : Option TBState) (stL : Option LBState) (stS : List Int)
    (hR : 1 ≤ R) (hL : 1 ≤ L) (hInv : ∀ s, stL = some s → s.level ≤ C) :
    (∀ li, (tbAllow B R nowN (.ok stT)).1.info = some li → li.Allowed = false →
        li.Remaining = 0 ∧ 0 < li.ResetIn) ∧
    (∀ li, (lbAllow C L nowN (.ok stL)).1.info = some li → li.Allowed = false →
        li.Remaining = 0 ∧ 0 < li.ResetIn) ∧
    (∀ li, (swAllow N W nowZ (.ok stS)).1.info = some li → li.Allowed = false →
        li.Remaining = 0) := by
  have hcR : ceilDiv 1 R = 1 := by
    have h2 : 1 + R - 1 = R := by omega
    rw [ceilDiv, h2, Nat.div_self (by omega)]
  have hcL : ceilDiv 1 L = 1 := by
    have h2 : 1 + L - 1 = L := by omega
    rw [ceilDiv, h2, Nat.div_self (by omega)]
  refine ⟨?_, ?_, ?_⟩
  · intro li hinfo hdenied
    unfold tbAllow at hinfo
    dsimp only at hinfo
    injection hinfo with hinfo
    subst hinfo
    have hflag : (tbEval B R nowN stT).1.flag ≠ 1 := by simpa using hdenied
    rw [tbEval_denied_reply B R nowN stT hflag]
    simp [hcR]
  · intro li hinfo hdenied
    unfold lbAllow at hinfo
    dsimp only at hinfo
    injection hinfo with hinfo
    subst hinfo
    have hflag : (lbEval C L nowN stL).1.flag ≠ 1 := by simpa using hdenied
    rw [lbEval_denied_reply C L nowN stL hInv hflag]
    simp [hcL]
  · intro li hinfo hdenied
    unfold swAllow at hinfo
    dsimp only at hinfo
    injection hinfo with hinfo
    subst hinfo
    have hflag : (swEval N (nowZ - W) nowZ W stS).1.flag ≠ 1 := by simpa using hdenied
    rw [swEval_denied_remaining N (nowZ - W) nowZ W stS hflag]

/-- Witness for C5 (amended) at denied calls of all three limiters
(token bucket `B = R = 1` on an empty bucket, leaky bucket `C = L = 1` on
a full bucket, sliding window `N = 1`, `W = 10` on a fresh hit). -/
theorem limiter_denied_info_witness :
    (⟨false, 0, 1, 1⟩ : LimitInfo).Remaining = 0 ∧
    0 < (⟨false, 0, 1, 1⟩ : LimitInfo).ResetIn :=
  (limiter_denied_info 1 1 1 1 1 10 0 100 (some ⟨0, 0⟩) (some ⟨1, 0⟩) [100]
    (by decide) (by decide) (by intro s hs; cases hs; decide)).1
    ⟨false, 0, 1, 1⟩ (by decide) (by decide)

/-- Counterexample for C5 as stated: with `N = 1`, `W = 10`, a second call
at the same second `100` (state `[100]`) is denied with `ResetIn = 0`,
violating `reset_in > 0`. -/
theorem limiter_denied_info_cex :
    (swAllow 1 10 100 (.ok [100])).1.info = some ⟨false, 0, 1, 0⟩ ∧
    ¬ (0 : Int) < 0 := by decide

/-- Claim C6 (amended): after dropping entries outside the window, a call
with `k < N` surviving entries is allowed with `remaining = N - k - 1` and
`reset_in = W`; with `k ≥ N` it is denied with `remaining = 0` and
`reset_in = now - t₀` (the age of the oldest retained entry — the script
computes `window_start + W - t₀`, not the claimed
`t₀ + W - (now - W)`). -/
theorem slidingWindow_reply (N W : Nat) (now : Int) (st kept : List Int)
    (hkept : kept = st.filter (fun t => decide (t < 0 ∨ now - W < t))) :
    (kept.length < N →
      (swEval N (now - W) now W st).1 = ⟨1, (N : Int) - kept.length - 1, W⟩) ∧
    (N ≤ kept.length → ∀ t0, kept.min? = some t0 →
      (swEval N (now - W) now W st).1 = ⟨0, 0, now - t0⟩) := by
  constructor
  · intro hlt
    unfold swEval
    dsimp only
    rw [← hkept, if_pos hlt]
  · intro hge t0 ht0
    unfold swEval
    dsimp only
    rw [← hkept, if_neg (Nat.not_lt.mpr hge), ht0]
    dsimp only
    congr 1
    omega

/-- Witness for C6 (amended) at `N = 2`, `W = 60`, `now = 100`, state
`[50, 100]`: the call is denied with wait `100 - 50 = 50`. -/
theorem slidingWindow_reply_witness :
    (swEval 2 (100 - 60) 100 60 [50, 100]).1 = ⟨0, 0, 100 - 50⟩ :=
  (slidingWindow_reply 2 60 100 [50, 100] [50, 100] (by decide)).2 (by decide) 50 (by decide)

/-- Counterexample for C6 as stated: at `N = 2`, `W = 60`, `now = 100`,
state `[50, 100]`, the script reports `reset_in = 50`, not the claimed
`ceil(t₀ + W - (now - W)) = 50 + 60 - 40 = 70`. -/
theorem slidingWindow_resetIn_cex :
    (swEval 2 (100 - 60) 100 60 [50, 100]).1 = ⟨0, 0, 50⟩ ∧
    (50 : Int) ≠ 50 + 60 - (100 - 60) := by decide

/-- Claim C7: on a coordination-store error every limiter variant returns
`(false, nil, error)`, and the rate-limit middleware fails open — the
request proceeds (`c.Next()` runs), no rate-limit headers are set, and no
429 is emitted. -/
theorem storeError_failOpen (B R C L N W nowN : Nat) (nowZ : Int) (e : String)
    (enabled : Bool) (hdrNow : Int) :
    (tbAllow B R nowN (.error e)).1 = ⟨false, none, some ("redis error: " ++ e)⟩ ∧
    (lbAllow C L nowN (.error e)).1 = ⟨false, none, some ("redis error: " ++ e)⟩ ∧
    (swAllow N W nowZ (.error e)).1 = ⟨false, none, some ("redis error: " ++ e)⟩ ∧
    rateLimitMiddlewareRun enabled ⟨false, none, some ("redis error: " ++ e)⟩ hdrNow =
      ⟨true, [], false⟩ := by
  refine ⟨rfl, rfl, rfl, ?_⟩
  cases enabled <;> rfl

/-- Deleting key `k` removes exactly the entry for `k` from a header map. -/
theorem lookup_headerDel (h : List (String × List String)) (k q : String) :
    (headerDel h k).lookup q = if q = k then none else h.lookup q := by
  induction h with
  | nil => simp [headerDel]
  | cons kv t ih =>
    obtain ⟨a, v⟩ := kv
    rw [headerDel] at ih ⊢
    rw [List.filter_cons]
    by_cases hak : a = k
    · rw [if_neg (by simp [hak])]
      rw [ih]
      by_cases hqk : q = k
      · simp [hqk]
      · rw [if_neg hqk, if_neg hqk]
        have hb : (q == a) = false := by simp [hak ▸ hqk]
        simp [List.lookup, hb]
    · rw [if_pos (by simp [hak])]
      by_cases hqa : q = a
      · have hqk : ¬ q = k := fun hq => hak (hqa.symm.trans hq)
        have hb : (q == a) = true := by simp [hqa]
        rw [if_neg hqk]
        simp [List.lookup, hb]
      · have hb : (q == a) = false := by simp [hqa]
        simp only [List.lookup, hb, ih]

/-- Folding deletions over a list of keys removes exactly those keys. -/
theorem lookup_foldl_headerDel (L : List String) (h : List (String × List String)) (k : String) :
    ((L.foldl headerDel h).lookup k) = if k ∈ L then none else h.lookup k := by
  induction L generalizing h with
  | nil => simp
  | cons a L ih =>
    rw [List.foldl_cons, ih]
    by_cases hkL : k ∈ L
    · simp [hkL]
    · by_cases hka : k = a
      · simp [hkL, hka, lookup_headerDel]
      · simp [hkL, hka, lookup_headerDel]

/-- Claim C8: the upstream request built by `Router.Proxy` contains none
of the hop-by-hop headers, and every other header of the caller's request
is present with the same values. -/
theorem proxy_hopByHop_strip (h : List (String × List String)) (k : String) :
    (k ∈ hopByHopHeaders → (buildUpstreamHeader h).lookup k = none) ∧
    (k ∉ hopByHopHeaders → (buildUpstreamHeader h).lookup k = h.lookup k) := by
  unfold buildUpstreamHeader
  rw [lookup_foldl_headerDel]
  constructor
  · intro hk
    simp [hk]
  · intro hk
    simp [hk]

/-- Witness for C8 on a concrete request: `Connection` is stripped while
`Accept` survives with its value. -/
theorem proxy_hopByHop_strip_witness :
    (buildUpstreamHeader
        [("Connection", ["close"]), ("Accept", ["*/*"]), ("Upgrade", ["h2c"])]).lookup
      "Connection" = none ∧
    (buildUpstreamHeader
        [("Connection", ["close"]), ("Accept", ["*/*"]), ("Upgrade", ["h2c"])]).lookup
      "Accept" =
      [("Connection", ["close"]), ("Accept", ["*/*"]), ("Upgrade", ["h2c"])].lookup "Accept" :=
  ⟨(proxy_hopByHop_strip _ "Connection").1 (by decide),
   (proxy_hopByHop_strip _ "Accept").2 (by decide)⟩

/-- Claim C9 (amended): the rate-limit key is `"user:" ++ id` when a
non-empty user id is in the request context, and `"ip:" ++ clientIP` when
the id is absent or empty — not `"principal:"`/`"address:"` as claimed. -/
theorem defaultKeyFunc_shape (ip uid : String) (hne : uid ≠ "") :
    defaultKeyFunc ⟨some uid, ip⟩ = "user:" ++ uid ∧
    defaultKeyFunc ⟨none, ip⟩ = "ip:" ++ ip ∧
    defaultKeyFunc ⟨some "", ip⟩ = "ip:" ++ ip := by
  unfold defaultKeyFunc
  simp [hne]

/-- Witness for C9 (amended) at a concrete user id. -/
theorem defaultKeyFunc_shape_witness :
    defaultKeyFunc ⟨some "bob", "198.51.100.2"⟩ = "user:" ++ "bob" :=
  (defaultKeyFunc_shape "198.51.100.2" "bob" (by decide)).1

/-- Counterexample for C9 as stated: for user id "alice" the key is
`"user:alice"`, not `"principal:alice"`; for an anonymous caller it is
`"ip:<addr>"`, not `"address:<addr>"`. -/
theorem defaultKeyFunc_cex :
    defaultKeyFunc ⟨some "alice", "203.0.113.7"⟩ = "user:alice" ∧
    defaultKeyFunc ⟨some "alice", "203.0.113.7"⟩ ≠ "principal:alice" ∧
    defaultKeyFunc ⟨none, "203.0.113.7"⟩ = "ip:203.0.113.7" ∧
    defaultKeyFunc ⟨none, "203.0.113.7"⟩ ≠ "address:203.0.113.7" := by decide

/-- An in-range `getD` returns a member of the list. -/
theorem mem_of_getD (l : List String) (i : Nat) (d : String) (h : i < l.length) :
    l.getD i d ∈ l := by
  rw [List.getD_eq_getElem?_getD, List.getElem?_eq_getElem h]
  exact List.getElem_mem h

/-- `GetHealthyURLs` on a non-empty configured URL list never returns the
empty list (the fallback branch returns all URLs). -/
theorem getHealthyURLs_ne_nil (hm : List (String × Bool)) (urls : List String)
    (hu : urls ≠ []) : getHealthyURLs hm urls ≠ [] := by
  unfold getHealthyURLs
  dsimp only
  split
  · exact hu
  · rename_i hne
    simpa [List.isEmpty_iff] using hne

/-- Every URL returned by `GetHealthyURLs` is a configured URL, provided
the health map is keyed by configured URLs (which `checkAll` guarantees). -/
theorem mem_of_mem_getHealthyURLs (hm : List (String × Bool)) (urls : List String)
    (x : String) (hkeys : ∀ p ∈ hm, p.1 ∈ urls) (hx : x ∈ getHealthyURLs hm urls) :
    x ∈ urls := by
  unfold getHealthyURLs at hx
  dsimp only at hx
  split at hx
  · exact hx
  · rcases List.mem_map.mp hx with ⟨p, hp, rfl⟩
    exact hkeys p (List.mem_filter.mp hp).1

/-- Claim C10: `GetHealthyURLs` never returns an empty list for a
non-empty configured URL list (even when no URL is marked healthy), and
`Router.roundRobin` returns the empty string — the 503 trigger — only
when the group's configured URL list is itself empty (assuming the health
map is keyed by configured URLs and no configured URL is the empty
string). -/
theorem healthy_fallback_selector (hm : List (String × Bool)) (urls : List String)
    (cur : Nat) (hc : Option (List (String × Bool)))
    (hkeys : ∀ p ∈ hc.getD [], p.1 ∈ urls) (hne : "" ∉ urls) :
    (urls ≠ [] → getHealthyURLs hm urls ≠ []) ∧
    ((roundRobinStep hc urls cur).1 = "" → urls = []) := by
  refine ⟨getHealthyURLs_ne_nil hm urls, ?_⟩
  intro hres
  by_contra hu
  have hie : urls.isEmpty = false := by simpa [List.isEmpty_iff] using hu
  cases hc with
  | none =>
    unfold roundRobinStep at hres
    rw [hie] at hres
    simp only [Bool.false_eq_true, if_false] at hres
    rw [if_neg (by simpa [List.isEmpty_iff] using hu)] at hres
    have hlen : 0 < urls.length := List.length_pos.mpr hu
    have hmem := mem_of_getD urls ((cur + 1) % urls.length) "" (Nat.mod_lt _ hlen)
    dsimp only at hres
    rw [hres] at hmem
    exact hne hmem
  | some hm2 =>
    unfold roundRobinStep at hres
    rw [hie] at hres
    simp only [Bool.false_eq_true, if_false] at hres
    have hh : getHealthyURLs hm2 urls ≠ [] := getHealthyURLs_ne_nil hm2 urls hu
    rw [if_neg (by simpa [List.isEmpty_iff] using hh)] at hres
    have hlen : 0 < (getHealthyURLs hm2 urls).length := List.length_pos.mpr hh
    have hmem := mem_of_getD (getHealthyURLs hm2 urls)
      ((cur + 1) % (getHealthyURLs hm2 urls).length) "" (Nat.mod_lt _ hlen)
    have hmu : (getHealthyURLs hm2 urls).getD
        ((cur + 1) % (getHealthyURLs hm2 urls).length) "" ∈ urls :=
      mem_of_mem_getHealthyURLs hm2 urls _ (by simpa using hkeys) hmem
    dsimp only at hres
    rw [hres] at hmu
    exact hne hmu

/-- Witness for C10: with both URLs marked unhealthy the fallback still
returns a non-empty candidate list. -/
theorem healthy_fallback_selector_witness :
    getHealthyURLs [("u1", false), ("u2", false)] ["u1", "u2"] ≠ [] :=
  (healthy_fallback_selector [("u1", false), ("u2", false)] ["u1", "u2"] 0
    (some [("u1", false), ("u2", false)]) (by decide) (by decide)).1 (by decide)

/-- Claim C1: `setupRouter` registers the rate-limit middleware before the
auth middleware on the /v1 group, so a /v1 request with no Authorization
header (auth type jwt, not on the skip-list) has the limiter's `Allow`
invoked (consuming budget, `allowCalled = true`) even though it is then
rejected with 401 — the claimed auth-before-rate-limit order does not
hold. -/
theorem v1_ratelimit_before_auth :
    runChain (v1Chain true true defaultSkipPaths (fun _ => none)) ⟨"/v1/svcA/ping", none⟩ =
      ⟨true, some 401, true, none⟩ ∧
    v1Chain true true defaultSkipPaths (fun _ => none) =
      [rateLimitStage true true, authStage defaultSkipPaths (fun _ => none)] := by
  refine ⟨by rfl, rfl⟩

/-- Claim C3: for a group with URLs `[u1, u2, u3]` and configured weight
`5`, `NewRouter` builds the double-length weight slice `[0,0,0,5,5,5]`
(current weights start at `[0,0,0]`); the resulting picks are
`u1, u2, u3` and then `u1` forever, the sum of current weights changes
after a pick (it drops by 15), and a run of 7 consecutive selections
(picks 4-10) chooses `u1` all 7 times — the claimed SWRR invariants and
the per-7-window counts `[5,1,1]` fail. -/
theorem router_weighted_breaks_swrr :
    (newWeightedRoundRobin ["u1", "u2", "u3"] (routerWeights 3 5)).weights =
      [0, 0, 0, 5, 5, 5] ∧
    wrrPicks (newWeightedRoundRobin ["u1", "u2", "u3"] (routerWeights 3 5)) 10 =
      ["u1", "u2", "u3", "u1", "u1", "u1", "u1", "u1", "u1", "u1"] ∧
    (wrrIter (newWeightedRoundRobin ["u1", "u2", "u3"] (routerWeights 3 5)) 1).current.sum ≠
      (newWeightedRoundRobin ["u1", "u2", "u3"] (routerWeights 3 5)).current.sum ∧
    ((wrrPicks (newWeightedRoundRobin ["u1", "u2", "u3"] (routerWeights 3 5)) 10).drop 3).count
      "u1" = 7 := by decide

/-- Claim C4: the TTL both `Allow` methods pass to EXPIRE is the raw
`time.Duration` quotient `B * 10^9 / R` (resp. `C * 10^9 / L`), not the
claimed `ceil(B/R)` (resp. `max 1 (ceil(C/L))`): at `B = R = 1` (and
`C = L = 1`) the stored TTL is `1000000000` seconds, not `1`. -/
theorem allow_ttl_eval :
    (tbAllow 1 1 0 (.ok none)).2 = some (⟨0, 0⟩, 1000000000) ∧
    (lbAllow 1 1 0 (.ok none)).2 = some (⟨1, 0⟩, 1000000000) ∧
    tokenBucketWindow 1 1 ≠ ceilDiv 1 1 ∧
    leakyBucketWindow 1 1 ≠ max 1 (ceilDiv 1 1) := by decide

end ApiGateway
